import Mathlib

/-!
Verification of the dicom-contour-parser repository.

The main module `dicom_contour_parser/dicom_contour_parser.py` is embedded
shallowly below.  The collaborator module `parsing` (contour decoding,
polygon rasterization and DICOM decoding) is part of the repository but its
source is not available here; its operations are modelled from the spec
(section 4.2 of the design document) where a claim depends on them, and are
otherwise treated as oracle parameters.  Machine floats are modelled as
rationals; Python integers as `Int`/`Nat`.

The file is organized as: all definitions first, then the theorems.
-/

namespace DicomContour

/-! ## Rasterizer (modelled from the spec, section 4.2) -/

/-- A 2-D coordinate: `(x, y)` with `x` the column axis, `y` the row axis. -/
abbrev Point : Type := Rat × Rat

/-- Python 3 `round` on a rational: round half to even (banker's rounding). -/
def pyRound (q : Rat) : Int :=
  let f : Int := q.floor
  let r : Rat := q - (f : Rat)
  if r < 1/2 then f
  else if 1/2 < r then f + 1
  else if f % 2 = 0 then f else f + 1

/-- Edges of an implicitly closed polygon: consecutive vertex pairs plus the
closing edge from the last vertex back to the first. -/
def edgesOf (poly : List Point) : List (Point × Point) :=
  match poly with
  | [] => []
  | p :: _ => poly.zip (poly.tail ++ [p])

/-- Modelled from the spec: one step of the standard crossing-number
(ray-casting) point-in-polygon test.  The horizontal ray from `p` towards
`+x` crosses the edge `(a, b)` iff the endpoints straddle `p`'s row (with the
half-open convention) and the edge's intersection with the ray lies strictly
to the right of `p`. -/
def crossesRay (p : Point) (e : Point × Point) : Bool :=
  let a := e.1
  let b := e.2
  (decide (p.2 < a.2) != decide (p.2 < b.2)) &&
    decide (p.1 < a.1 + (p.2 - a.2) * (b.1 - a.1) / (b.2 - a.2))

/-- Modelled from the spec: the crossing-number point-in-polygon test, the
point is inside iff the ray crosses an odd number of edges. -/
def pointInPoly (poly : List Point) (p : Point) : Bool :=
  ((edgesOf poly).filter (crossesRay p)).length % 2 == 1

/-- Modelled from the spec (the source of `parsing.poly_to_mask` is not in
the repository snapshot): the rasterizer returns a height-by-width boolean
grid whose entry at row `r`, column `c` is the point-in-polygon test at the
pixel center `(x, y) = (c + 1/2, r + 1/2)`. -/
def poly_to_mask (poly : List Point) (width height : Nat) : List (List Bool) :=
  (List.range height).map (fun r : Nat =>
    (List.range width).map (fun c : Nat =>
      pointInPoly poly ((c : Rat) + 1/2, (r : Rat) + 1/2)))

/-- `p` lies on the closed segment from `a` to `b`. -/
def onSegment (p a b : Point) : Bool :=
  decide ((b.1 - a.1) * (p.2 - a.2) = (b.2 - a.2) * (p.1 - a.1)) &&
    decide (min a.1 b.1 ≤ p.1) && decide (p.1 ≤ max a.1 b.1) &&
    decide (min a.2 b.2 ≤ p.2) && decide (p.2 ≤ max a.2 b.2)

/-- `p` lies on the boundary of the (implicitly closed) polygon. -/
def onPolyBoundary (poly : List Point) (p : Point) : Bool :=
  (edgesOf poly).any (fun e => onSegment p e.1 e.2)

/-- Strict interior, formalized per the spec's own convention (section 4.2):
the crossing-number test reports inside and the point is not on the
boundary. -/
def strictlyInterior (poly : List Point) (p : Point) : Prop :=
  pointInPoly poly p = true ∧ onPolyBoundary poly p = false

/-- Strict exterior: the crossing-number test reports outside and the point
is not on the boundary. -/
def strictlyExterior (poly : List Point) (p : Point) : Prop :=
  pointInPoly poly p = false ∧ onPolyBoundary poly p = false

/-! ## Main module: `_parse_dicom_and_contour_files` and `Record`

Embedded from `src/dicom_contour_parser/dicom_contour_parser.py`.  The
external collaborators `parsing.parse_dicom_file` (a DICOM decoder that
returns a pixel grid or `None`) and `parsing.parse_contour_file` (a contour
decoder that returns the vertex list) are oracle parameters. -/

/-- A 2-D numeric pixel grid (int16 image values modelled as `Int`). -/
abbrev Grid : Type := List (List Int)

/-- A 2-D boolean mask. -/
abbrev Mask : Type := List (List Bool)

/-- numpy's `.shape` of a 2-D array: `(height, width)` = (number of rows,
length of the first row; decoder output is rectangular). -/
def gridShape (g : List (List α)) : Nat × Nat := (g.length, (g.headD []).length)

/-- `np.zeros(shape, dtype=np.bool_)`: an all-false grid. -/
def zerosBool (shape : Nat × Nat) : Mask :=
  List.replicate shape.1 (List.replicate shape.2 false)

/-- Lines 47-52 / 59-64 of the source: the bounding-box-derived target size
when the image is absent.  `max_x`/`max_y` start at 0, are folded over the
contour points `(x, y)`, and the code sets `height = round(max_x + 1)` and
`width = round(max_y + 1)` (the axis assignment is the source's own). -/
def bboxDims (path : List Point) : Nat × Nat :=
  let m := path.foldl (fun m p => (max m.1 p.1, max m.2 p.2)) ((0 : Rat), (0 : Rat))
  ((pyRound (m.1 + 1)).toNat, (pyRound (m.2 + 1)).toNat)

/-- The AttributeError message raised by the misspelt `np.zeors` calls on
lines 74 and 76 of the source. -/
def zeorsError : String := "AttributeError: module numpy has no attribute zeors"

/-- `_parse_dicom_and_contour_files` (lines 26-77).  `parseDicom` models
`parsing.parse_dicom_file` composed with the `pixel_data` extraction (the
source checks for `None` and otherwise takes the pixel data field);
`parseContour` models a successful `parsing.parse_contour_file` call.
Python exceptions are modelled with `Except String`; in particular the
`np.zeors(...)` calls on lines 74/76 (a misspelling of `np.zeros`) raise an
`AttributeError`, modelled as `.error zeorsError`. -/
def parse_dicom_and_contour_files (parseDicom : String → Option Grid)
    (parseContour : String → List Point)
    (filenames : String × String × String) :
    Except String (Option Grid × Option Mask × Option Mask) :=
  let dicomData : Option Grid :=
    if filenames.1 ≠ "" then parseDicom filenames.1 else none
  let icontourData : Option Mask :=
    if filenames.2.1 ≠ "" then
      let path := parseContour filenames.2.1
      let hw : Nat × Nat :=
        match dicomData with
        | some g => gridShape g
        | none => bboxDims path
      some (poly_to_mask path hw.2 hw.1)
    else none
  let ocontourData : Option Mask :=
    if filenames.2.2 ≠ "" then
      let path := parseContour filenames.2.2
      let hw : Nat × Nat :=
        match dicomData with
        | some g => gridShape g
        | none => bboxDims path
      some (poly_to_mask path hw.2 hw.1)
    else none
  match dicomData with
  | some g =>
      .ok (some g,
           some (icontourData.getD (zerosBool (gridShape g))),
           some (ocontourData.getD (zerosBool (gridShape g))))
  | none =>
      if icontourData.isSome then .error zeorsError
      else if ocontourData.isSome then .error zeorsError
      else .ok (none, none, none)

/-- The `Record` class (lines 91-142).  `data` is the `_data` field
(`None` initially). -/
structure Record where
  patient_id : String
  original_id : String
  serial_id : Nat
  filenames : String × String × String
  data : Option (Option Grid × Option Mask × Option Mask)

/-- `Record.has_dicom` (line 120): the DICOM filename is non-empty. -/
def Record.has_dicom (r : Record) : Bool := r.filenames.1 ≠ ""

/-- `Record.has_icontour` (line 125). -/
def Record.has_icontour (r : Record) : Bool := r.filenames.2.1 ≠ ""

/-- `Record.has_ocontour` (line 130). -/
def Record.has_ocontour (r : Record) : Bool := r.filenames.2.2 ≠ ""

/-- `Record.clear_data` (line 110). -/
def Record.clear_data (r : Record) : Record := { r with data := none }

/-- `Record.load_data` (line 115): parse and store the data, propagating
any exception. -/
def Record.load_data (parseDicom : String → Option Grid)
    (parseContour : String → List Point) (r : Record) :
    Except String Record :=
  (parse_dicom_and_contour_files parseDicom parseContour r.filenames).map
    (fun d => { r with data := some d })

/-- The `Record.data` property (line 135): return the cached tuple, loading
it first when it is not yet cached. -/
def Record.dataProperty (parseDicom : String → Option Grid)
    (parseContour : String → List Point) (r : Record) :
    Except String (Option Grid × Option Mask × Option Mask) :=
  match r.data with
  | some d => .ok d
  | none => parse_dicom_and_contour_files parseDicom parseContour r.filenames

/-! ## `_get_valid_sids` (lines 192-237) and `_parse` (lines 239-257)

Directory listing (`os.listdir` filtered to regular files) and the regex
match step are oracle parameters: each directory is given as its list of
filenames, and each modality's pattern as a partial extraction function
returning the numeric id (`int(match.group(1))`) and the matched filename
(`match.group(0)`), or nothing when the pattern does not match. -/

/-- `os.path.join` on POSIX. -/
def pathJoin (a b : String) : String := a ++ "/" ++ b

/-- Python's `dict(...)` built from an association list: last write wins,
lookup by key. -/
def dictOf (l : List (Nat × String)) : Nat → Option String :=
  fun k => (l.reverse.find? (fun p => p.1 == k)).map (fun p => p.2)

/-- `_get_valid_sids`: build the three id-to-filename mappings, take the
ascending sorted union of their ids (`sorted(list(set().union(...)))`,
modelled as an insertion sort of the deduplicated key list), and emit one
4-tuple per id, joining each present filename onto its directory and using
`''` for an absent modality. -/
def get_valid_sids (dicomDir icontourDir ocontourDir : String)
    (dicomFiles icontourFiles ocontourFiles : List String)
    (dm im om : String → Option (Nat × String)) :
    List (Nat × String × String × String) :=
  let dicomIds := dicomFiles.filterMap dm
  let icontourIds := icontourFiles.filterMap im
  let ocontourIds := ocontourFiles.filterMap om
  let sids := List.insertionSort (· ≤ ·)
    ((dicomIds.map Prod.fst ++ icontourIds.map Prod.fst ++
      ocontourIds.map Prod.fst).dedup)
  sids.map (fun sid =>
    (sid,
     (match dictOf dicomIds sid with
      | some f => pathJoin dicomDir f
      | none => ""),
     (match dictOf icontourIds sid with
      | some f => pathJoin icontourDir f
      | none => ""),
     (match dictOf ocontourIds sid with
      | some f => pathJoin ocontourDir f
      | none => "")))

/-- `_parse` (lines 239-257): for each `(pid, oid)` mapping pair, resolve
the DICOM directory and the two contour directories, skip the pair when any
of the three does not exist, and otherwise append one `Record` per tuple
returned by the id matcher (given here as an oracle `getSids`, keyed by the
three directory paths). -/
def parse_records (dirExists : String → Bool)
    (getSids : String → String → String → List (Nat × String × String × String))
    (dicomRoot contourRoot : String) (idList : List (String × String)) :
    List Record :=
  idList.flatMap (fun po =>
    let dicomDir := pathJoin dicomRoot po.1
    let icontourDir := pathJoin (pathJoin contourRoot po.2) "i-contours"
    let ocontourDir := pathJoin (pathJoin contourRoot po.2) "o-contours"
    if dirExists dicomDir && dirExists icontourDir && dirExists ocontourDir then
      (getSids dicomDir icontourDir ocontourDir).map (fun t =>
        { patient_id := po.1, original_id := po.2, serial_id := t.1,
          filenames := t.2, data := none })
    else [])

/-! ## Batch iterator (lines 259-321)

The iterator state is the parser's `record_list`: a list of records paired
with their mutable `_data` field.  The record type `R` and the loaded-data
type `D` are abstract; `load` is the (pure) result of `Record.load_data` on
a record, and `out` is `map_func` (line 297-301: either `r._data` itself or
the `(tag, r._data)` pair).  `random.shuffle` is modelled by passing the
already-shuffled list; the functions below mirror the code from line 302
on. -/

/-- The parser's record list: each record with its `_data` field. -/
abbrev IterState (R D : Type) : Type := List (R × Option D)

/-- `record.load_data()`: overwrite the data field with the loaded data. -/
def loadRec (load : R → D) (x : R × Option D) : R × Option D :=
  (x.1, some (load x.1))

/-- `record.clear_data()`: drop the data field. -/
def clearRec (x : R × Option D) : R × Option D := (x.1, none)

/-- In-place update of the element at one index (no-op out of range). -/
def modifyAt (f : α → α) : Nat → List α → List α
  | _, [] => []
  | 0, a :: l => f a :: l
  | n + 1, a :: l => a :: modifyAt f n l

/-- The clamped index range of `_prepare_batch_data`/`_invalidate_batch_data`
(lines 265-266 and 289-290): `range(max(low, 0), min(high, len))`. -/
def clampedRange (low high : Int) (len : Nat) : List Int :=
  (List.range (min high (len : Int) - max low 0).toNat).map
    (fun k : Nat => max low 0 + (k : Int))

/-- `_prepare_batch_data` (lines 259-268): load every record in the clamped
index range. -/
def prepare_batch_data (load : R → D) (low high : Int) (st : IterState R D) :
    IterState R D :=
  (clampedRange low high st.length).foldl
    (fun s i => modifyAt (loadRec load) i.toNat s) st

/-- `_invalidate_batch_data` (lines 283-292): clear every record in the
clamped index range. -/
def invalidate_batch_data (low high : Int) (st : IterState R D) :
    IterState R D :=
  (clampedRange low high st.length).foldl
    (fun s i => modifyAt clearRec i.toNat s) st

/-- `list(map(map_func, self.record_list[l:h]))` (lines 313 and 320). -/
def yieldBatch (out : R × Option D → β) (st : IterState R D) (low high : Nat) :
    List β :=
  ((st.drop low).take (high - low)).map out

/-- The batch a yield produces once its records are loaded: the slice of the
(record-only) list mapped through a fresh load. -/
def loadedSlice (load : R → D) (out : R × Option D → β) (rs : List R)
    (low high : Nat) : List β :=
  ((rs.drop low).take (high - low)).map (fun r => out (r, some (load r)))

/-- The loop bounds `range(low0, low0 + k*b, b)`; the iterator uses
`lowsFrom 0 ceil(n/b) b` for `range(0, num_records, batch_size)`. -/
def lowsFrom (low0 k b : Nat) : List Nat :=
  match k with
  | 0 => []
  | k + 1 => low0 :: lowsFrom (low0 + b) k b

/-- The batches yielded by the main loop of `random_shuffled_iterator`
(lines 305-321) in synchronous mode (`async_load=False`): at each `low`,
prepare the new batch, then yield (and invalidate) the previously prepared
batch; after the loop, yield the trailing prepared batch. -/
def syncLoopOut (load : R → D) (out : R × Option D → β) (b n : Nat) :
    List Nat → IterState R D → Option (Nat × Nat) → List (List β)
  | [], _, none => []
  | [], st, some lh => [yieldBatch out st lh.1 lh.2]
  | low :: rest, st, none =>
      syncLoopOut load out b n rest
        (prepare_batch_data load low (↑(min (low + b) n) : Int) st)
        (some (low, min (low + b) n))
  | low :: rest, st, some lh =>
      yieldBatch out (prepare_batch_data load low (↑(min (low + b) n) : Int) st)
          lh.1 lh.2 ::
        syncLoopOut load out b n rest
          (invalidate_batch_data lh.1 lh.2
            (prepare_batch_data load low (↑(min (low + b) n) : Int) st))
          (some (low, min (low + b) n))

/-- The final record list of the synchronous main loop: the companion state
projection of `syncLoopOut`. -/
def syncLoopSt (load : R → D) (b n : Nat) :
    List Nat → IterState R D → Option (Nat × Nat) → IterState R D
  | [], st, none => st
  | [], st, some lh => invalidate_batch_data lh.1 lh.2 st
  | low :: rest, st, none =>
      syncLoopSt load b n rest
        (prepare_batch_data load low (↑(min (low + b) n) : Int) st)
        (some (low, min (low + b) n))
  | low :: rest, st, some lh =>
      syncLoopSt load b n rest
        (invalidate_batch_data lh.1 lh.2
          (prepare_batch_data load low (↑(min (low + b) n) : Int) st))
        (some (low, min (low + b) n))

/-- The batches yielded in asynchronous mode (`async_load=True`): starting
the loader thread for the new batch first joins the previous thread
(`_async_prepare_batch_data`, lines 270-281), so the in-flight load of the
previously prepared batch takes effect by the time that batch is yielded;
the trailing thread is joined after the loop (lines 316-317) before the
final yield.  The worker's effect is placed at its join point, the latest
position the single-worker serialization allows. -/
def asyncLoopOut (load : R → D) (out : R × Option D → β) (b n : Nat) :
    List Nat → IterState R D → Option (Nat × Nat) → List (List β)
  | [], _, none => []
  | [], st, some lh =>
      [yieldBatch out (prepare_batch_data load lh.1 lh.2 st) lh.1 lh.2]
  | low :: rest, st, none =>
      asyncLoopOut load out b n rest st (some (low, min (low + b) n))
  | low :: rest, st, some lh =>
      yieldBatch out (prepare_batch_data load lh.1 lh.2 st) lh.1 lh.2 ::
        asyncLoopOut load out b n rest
          (invalidate_batch_data lh.1 lh.2
            (prepare_batch_data load lh.1 lh.2 st))
          (some (low, min (low + b) n))

/-- The final record list of the asynchronous main loop. -/
def asyncLoopSt (load : R → D) (b n : Nat) :
    List Nat → IterState R D → Option (Nat × Nat) → IterState R D
  | [], st, none => st
  | [], st, some lh =>
      invalidate_batch_data lh.1 lh.2 (prepare_batch_data load lh.1 lh.2 st)
  | low :: rest, st, none =>
      asyncLoopSt load b n rest st (some (low, min (low + b) n))
  | low :: rest, st, some lh =>
      asyncLoopSt load b n rest
        (invalidate_batch_data lh.1 lh.2
          (prepare_batch_data load lh.1 lh.2 st))
        (some (low, min (low + b) n))

/-- `random_shuffled_iterator` (lines 294-321) on an already-shuffled record
list: one full pass, returning all yielded batches and the final record
list. -/
def random_shuffled_iterator (load : R → D) (out : R × Option D → β)
    (asyncLoad : Bool) (shuffled : IterState R D) (b : Nat) :
    List (List β) × IterState R D :=
  let n := shuffled.length
  let lows := lowsFrom 0 ((n + b - 1) / b) b
  if asyncLoad then
    (asyncLoopOut load out b n lows shuffled none,
     asyncLoopSt load b n lows shuffled none)
  else
    (syncLoopOut load out b n lows shuffled none,
     syncLoopSt load b n lows shuffled none)

/-! ### Concrete fixtures for witnesses -/

/-- A concrete three-record state for iterator witnesses (records are bare
naturals, loading a record produces the record itself). -/
def stIterW : IterState Nat Nat := [(1, none), (2, none), (3, none)]

/-- A concrete two-record shuffled state (the reversal of `stOrigW`). -/
def stShuffledW : IterState Nat Nat := [(2, none), (1, none)]

/-- The pre-call two-record state. -/
def stOrigW : IterState Nat Nat := [(1, none), (2, none)]

/-- A filesystem oracle under which only the o-contour directory of the
mapping pair `("p", "s")` is missing. -/
def existsNoOcontourW : String → Bool := fun d => d ≠ "croot/s/o-contours"

/-- A filesystem oracle under which every directory exists. -/
def existsAllW : String → Bool := fun _ => true

/-- A concrete id-matcher oracle returning one tuple. -/
def getSidsW : String → String → String → List (Nat × String × String × String) :=
  fun _ _ _ => [(1, "a", "b", "")]

/-- A concrete DICOM filename pattern oracle with ids 1, 2, 3. -/
def dmW : String → Option (Nat × String) := fun f =>
  if f = "1.dcm" then some (1, "1.dcm")
  else if f = "2.dcm" then some (2, "2.dcm")
  else if f = "3.dcm" then some (3, "3.dcm")
  else none

/-- A concrete i-contour filename pattern oracle with ids 2, 3. -/
def imW : String → Option (Nat × String) := fun f =>
  if f = "i2" then some (2, "i2")
  else if f = "i3" then some (3, "i3")
  else none

/-- A concrete o-contour filename pattern oracle with id 3. -/
def omW : String → Option (Nat × String) := fun f =>
  if f = "o3" then some (3, "o3") else none

/-- The matcher output on the fixture directories. -/
def sidsFixtureW : List (Nat × String × String × String) :=
  get_valid_sids "d" "i" "o" ["1.dcm", "2.dcm", "3.dcm"] ["i2", "i3"] ["o3"]
    dmW imW omW

/-- A concrete 2×2 decoded image grid. -/
def gridW : Grid := [[3, 1], [4, 1]]

/-- A concrete DICOM decoder oracle: decodes only `a.dcm`, to `gridW`. -/
def parseDicomW : String → Option Grid :=
  fun f => if f = "a.dcm" then some gridW else none

/-- A trivial contour decoder oracle. -/
def parseContourW : String → List Point := fun _ => []

/-- A concrete record holding only an image filename. -/
def recordW : Record :=
  { patient_id := "p", original_id := "s", serial_id := 1,
    filenames := ("a.dcm", "", ""), data := none }

end DicomContour

namespace DicomContour

/-! ## Theorems -/

lemma poly_to_mask_length (poly : List Point) (w h : Nat) :
    (poly_to_mask poly w h).length = h := by
  rw [poly_to_mask, List.length_map, List.length_range]

lemma poly_to_mask_row_length (poly : List Point) (w h : Nat)
    (row : List Bool) (hrow : row ∈ poly_to_mask poly w h) :
    row.length = w := by
  simp only [poly_to_mask, List.mem_map] at hrow
  obtain ⟨r, _, rfl⟩ := hrow
  rw [List.length_map, List.length_range]

lemma poly_to_mask_entry (poly : List Point) (w h r c : Nat)
    (hr : r < h) (hc : c < w) :
    ((poly_to_mask poly w h).getD r []).getD c false =
      pointInPoly poly ((c : Rat) + 1/2, (r : Rat) + 1/2) := by
  have h1 : (poly_to_mask poly w h).getD r [] =
      (List.range w).map (fun c : Nat =>
        pointInPoly poly ((c : Rat) + 1/2, (r : Rat) + 1/2)) := by
    rw [poly_to_mask]
    rw [List.getD_eq_getElem?_getD]
    rw [List.getElem?_map]
    rw [List.getElem?_range hr]
    rfl
  rw [h1, List.getD_eq_getElem?_getD, List.getElem?_map, List.getElem?_range hc]
  rfl

/-- C1: for every polygon and positive grid dimensions, `poly_to_mask`
returns a height-by-width boolean grid in which every pixel center strictly
interior to the polygon is true and every pixel center strictly exterior is
false.  (Interior/exterior are formalized via the crossing-number convention
that the spec itself mandates; the statement is proved for all polygons, in
particular the non-self-intersecting ones.) -/
theorem poly_to_mask_spec (poly : List Point) (w h : Nat)
    (_hw : 0 < w) (_hh : 0 < h) :
    (poly_to_mask poly w h).length = h ∧
    (∀ row ∈ poly_to_mask poly w h, row.length = w) ∧
    (∀ r c : Nat, r < h → c < w →
      (strictlyInterior poly ((c : Rat) + 1/2, (r : Rat) + 1/2) →
        ((poly_to_mask poly w h).getD r []).getD c false = true) ∧
      (strictlyExterior poly ((c : Rat) + 1/2, (r : Rat) + 1/2) →
        ((poly_to_mask poly w h).getD r []).getD c false = false)) := by
  refine ⟨poly_to_mask_length poly w h, poly_to_mask_row_length poly w h, ?_⟩
  intro r c hr hc
  constructor
  · intro hin
    rw [poly_to_mask_entry poly w h r c hr hc]
    exact hin.1
  · intro hout
    rw [poly_to_mask_entry poly w h r c hr hc]
    exact hout.1

/-- Witness for C1: a concrete triangle, a 4×4 grid, a strictly interior
pixel center and a strictly exterior one. -/
theorem poly_to_mask_spec_witness :
    (0 < 4 ∧ 0 < 4 ∧
      strictlyInterior [((0:Rat),(0:Rat)), (4,0), (0,4)] ((0:Rat) + 1/2, (0:Rat) + 1/2) ∧
      strictlyExterior [((0:Rat),(0:Rat)), (4,0), (0,4)] ((3:Rat) + 1/2, (3:Rat) + 1/2)) ∧
    (((poly_to_mask [((0:Rat),(0:Rat)), (4,0), (0,4)] 4 4).getD 0 []).getD 0 false = true ∧
     ((poly_to_mask [((0:Rat),(0:Rat)), (4,0), (0,4)] 4 4).getD 3 []).getD 3 false = false) := by
  have h1 : strictlyInterior [((0:Rat),(0:Rat)), (4,0), (0,4)]
      ((0:Rat) + 1/2, (0:Rat) + 1/2) := by
    constructor <;>
      norm_num [pointInPoly, edgesOf, crossesRay, onPolyBoundary, onSegment,
        List.filter]
  have h2 : strictlyExterior [((0:Rat),(0:Rat)), (4,0), (0,4)]
      ((3:Rat) + 1/2, (3:Rat) + 1/2) := by
    constructor <;>
      norm_num [pointInPoly, edgesOf, crossesRay, onPolyBoundary, onSegment,
        List.filter]
  refine ⟨⟨by norm_num, by norm_num, h1, h2⟩, ?_, ?_⟩
  · exact ((poly_to_mask_spec [((0:Rat),(0:Rat)), (4,0), (0,4)] 4 4
      (by norm_num) (by norm_num)).2.2 0 0 (by norm_num) (by norm_num)).1 h1
  · exact ((poly_to_mask_spec [((0:Rat),(0:Rat)), (4,0), (0,4)] 4 4
      (by norm_num) (by norm_num)).2.2 3 3 (by norm_num) (by norm_num)).2 h2

/-- C2 counter-evidence: with the image filename absent and an i-contour
filename present (the contour parsing to a concrete vertex list),
`_parse_dicom_and_contour_files` reaches the `np.zeors` call on line 74 and
raises an AttributeError instead of substituting a zero-filled int16 grid. -/
theorem parse_files_no_dicom_raises :
    parse_dicom_and_contour_files (fun _ => none)
      (fun _ => [((0 : Rat), (0 : Rat))]) ("", "contour.txt", "") =
      .error zeorsError := by
  rfl

/-- C9 counter-evidence: with the image filename present but the DICOM
decoder returning no value (`None`), and an i-contour present, the load
reaches the `np.zeors` call and raises an AttributeError rather than
completing the zero-image substitution; it also behaves exactly as in the
image-absent case (both raise the same error). -/
theorem parse_files_decoder_none_raises :
    parse_dicom_and_contour_files (fun _ => none)
      (fun _ => [((0 : Rat), (0 : Rat))]) ("img.dcm", "contour.txt", "") =
      .error zeorsError ∧
    parse_dicom_and_contour_files (fun _ => none)
      (fun _ => [((0 : Rat), (0 : Rat))]) ("img.dcm", "contour.txt", "") =
      parse_dicom_and_contour_files (fun _ => none)
        (fun _ => [((0 : Rat), (0 : Rat))]) ("", "contour.txt", "") := by
  constructor <;> rfl

/-- C6: a record with an image filename present and both contour filenames
absent reports `has_dicom`, not `has_icontour`/`has_ocontour`, and its data
property yields the decoded grid together with two all-false masks of the
image grid's height and width. -/
theorem record_dicom_only_spec (parseDicom : String → Option Grid)
    (parseContour : String → List Point) (r : Record) (f : String) (g : Grid)
    (hf : r.filenames = (f, "", "")) (hne : f ≠ "")
    (hdec : parseDicom f = some g) (hfresh : r.data = none) :
    r.has_dicom = true ∧ r.has_icontour = false ∧ r.has_ocontour = false ∧
    r.dataProperty parseDicom parseContour =
      .ok (some g, some (zerosBool (gridShape g)), some (zerosBool (gridShape g))) ∧
    (zerosBool (gridShape g)).length = g.length ∧
    (∀ row ∈ zerosBool (gridShape g), row.length = (g.headD []).length) ∧
    (∀ row ∈ zerosBool (gridShape g), ∀ x ∈ row, x = false) := by
  refine ⟨?_, ?_, ?_, ?_, ?_, ?_, ?_⟩
  · simp [Record.has_dicom, hf, hne]
  · simp [Record.has_icontour, hf]
  · simp [Record.has_ocontour, hf]
  · rw [Record.dataProperty, hfresh, hf, parse_dicom_and_contour_files]
    simp [hne, hdec]
  · simp [zerosBool, gridShape]
  · intro row hrow
    simp only [zerosBool, List.mem_replicate] at hrow
    rw [hrow.2, List.length_replicate]
    rfl
  · intro row hrow x hx
    simp only [zerosBool, List.mem_replicate] at hrow
    rw [hrow.2] at hx
    exact (List.mem_replicate.mp hx).2

/-! ### Iterator lemmas -/

lemma modifyAt_length (f : α → α) (n : Nat) (l : List α) :
    (modifyAt f n l).length = l.length := by
  induction l generalizing n with
  | nil => cases n <;> rfl
  | cons a l ih =>
      cases n with
      | zero => rfl
      | succ m => simpa [modifyAt] using ih m

lemma getElem?_modifyAt (f : α → α) (n : Nat) (l : List α) (i : Nat) :
    (modifyAt f n l)[i]? = if i = n then (l[i]?).map f else l[i]? := by
  induction l generalizing n i with
  | nil => simp [modifyAt]
  | cons a l ih =>
      cases n with
      | zero =>
          cases i with
          | zero => simp [modifyAt]
          | succ j => simp [modifyAt]
      | succ m =>
          cases i with
          | zero => simp [modifyAt]
          | succ j =>
              simp only [modifyAt, List.getElem?_cons_succ, ih m j]
              by_cases hij : j = m <;> simp [hij]

lemma foldl_modifyAt_getElem? (f : α → α) (hf : ∀ x, f (f x) = f x)
    (ixs : List Nat) (st : List α) (i : Nat) :
    (ixs.foldl (fun s j => modifyAt f j s) st)[i]? =
      if i ∈ ixs then (st[i]?).map f else st[i]? := by
  induction ixs generalizing st with
  | nil => simp
  | cons j rest ih =>
      rw [List.foldl_cons, ih (modifyAt f j st)]
      rw [getElem?_modifyAt]
      by_cases hij : i = j
      · subst hij
        by_cases hmem : i ∈ rest <;>
          simp [hmem, Option.map_map, Function.comp, hf]
        · cases st[i]? <;> simp [hf]
      · by_cases hmem : i ∈ rest <;> simp [hmem, hij]

lemma foldl_modifyAt_length (f : α → α) (ixs : List Nat) (st : List α) :
    (ixs.foldl (fun s j => modifyAt f j s) st).length = st.length := by
  induction ixs generalizing st with
  | nil => rfl
  | cons j rest ih => rw [List.foldl_cons, ih, modifyAt_length]

lemma mem_clampedRange (low high : Int) (len : Nat) (i : Int) :
    i ∈ clampedRange low high len ↔
      max low 0 ≤ i ∧ i < min high (len : Int) := by
  simp only [clampedRange, List.mem_map, List.mem_range]
  constructor
  · rintro ⟨k, hk, rfl⟩
    omega
  · rintro ⟨h1, h2⟩
    exact ⟨(i - max low 0).toNat, by omega, by omega⟩

lemma mem_clampedRange_toNat (low high : Int) (len : Nat) (j : Nat) :
    j ∈ (clampedRange low high len).map Int.toNat ↔
      max low 0 ≤ (j : Int) ∧ (j : Int) < min high (len : Int) := by
  constructor
  · rintro hmem
    obtain ⟨i, hi, rfl⟩ := List.mem_map.mp hmem
    have := (mem_clampedRange low high len i).mp hi
    omega
  · rintro ⟨h1, h2⟩
    exact List.mem_map.mpr ⟨(j : Int),
      (mem_clampedRange low high len (j : Int)).mpr ⟨h1, h2⟩, by omega⟩

lemma prepare_batch_data_eq (load : R → D) (low high : Int)
    (st : IterState R D) :
    prepare_batch_data load low high st =
      ((clampedRange low high st.length).map Int.toNat).foldl
        (fun s j => modifyAt (loadRec load) j s) st := by
  rw [List.foldl_map]
  rfl

lemma invalidate_batch_data_eq (low high : Int) (st : IterState R D) :
    invalidate_batch_data low high st =
      ((clampedRange low high st.length).map Int.toNat).foldl
        (fun s j => modifyAt clearRec j s) st := by
  rw [List.foldl_map]
  rfl

lemma prepare_batch_data_length (load : R → D) (low high : Int)
    (st : IterState R D) :
    (prepare_batch_data load low high st).length = st.length := by
  rw [prepare_batch_data_eq, foldl_modifyAt_length]

lemma invalidate_batch_data_length (low high : Int) (st : IterState R D) :
    (invalidate_batch_data low high st).length = st.length := by
  rw [invalidate_batch_data_eq, foldl_modifyAt_length]

lemma getElem?_prepare_batch_data (load : R → D) (low high : Int)
    (st : IterState R D) (i : Nat) :
    (prepare_batch_data load low high st)[i]? =
      if max low 0 ≤ (i : Int) ∧ (i : Int) < min high (st.length : Int) then
        (st[i]?).map (loadRec load)
      else st[i]? := by
  rw [prepare_batch_data_eq,
    foldl_modifyAt_getElem? (loadRec load) (fun x => rfl)]
  simp only [mem_clampedRange_toNat]

lemma getElem?_invalidate_batch_data (low high : Int) (st : IterState R D)
    (i : Nat) :
    (invalidate_batch_data low high st)[i]? =
      if max low 0 ≤ (i : Int) ∧ (i : Int) < min high (st.length : Int) then
        (st[i]?).map clearRec
      else st[i]? := by
  rw [invalidate_batch_data_eq,
    foldl_modifyAt_getElem? clearRec (fun x => rfl)]
  simp only [mem_clampedRange_toNat]

lemma yieldBatch_prepare_disjoint (load : R → D) (out : R × Option D → β)
    (st : IterState R D) (low high : Int) (l h : Nat)
    (hdis : (h : Int) ≤ max low 0) :
    yieldBatch out (prepare_batch_data load low high st) l h =
      yieldBatch out st l h := by
  unfold yieldBatch
  congr 1
  apply List.ext_getElem?
  intro j
  rw [List.getElem?_take, List.getElem?_take]
  by_cases hj : j < h - l
  · rw [if_pos hj, if_pos hj, List.getElem?_drop, List.getElem?_drop,
      getElem?_prepare_batch_data]
    split_ifs with hcond
    · exfalso
      omega
    · rfl
  · rw [if_neg hj, if_neg hj]

lemma yieldBatch_invalidate_disjoint (out : R × Option D → β)
    (st : IterState R D) (low high : Int) (l h : Nat)
    (hdis : high ≤ (l : Int)) :
    yieldBatch out (invalidate_batch_data low high st) l h =
      yieldBatch out st l h := by
  unfold yieldBatch
  congr 1
  apply List.ext_getElem?
  intro j
  rw [List.getElem?_take, List.getElem?_take]
  by_cases hj : j < h - l
  · rw [if_pos hj, if_pos hj, List.getElem?_drop, List.getElem?_drop,
      getElem?_invalidate_batch_data]
    split_ifs with hcond
    · exfalso
      omega
    · rfl
  · rw [if_neg hj, if_neg hj]

lemma prepare_invalidate_comm (load : R → D) (low high l h : Int)
    (st : IterState R D) (hdis : h ≤ low) :
    prepare_batch_data load low high (invalidate_batch_data l h st) =
      invalidate_batch_data l h (prepare_batch_data load low high st) := by
  apply List.ext_getElem?
  intro i
  rw [getElem?_prepare_batch_data, invalidate_batch_data_length,
    getElem?_invalidate_batch_data, getElem?_invalidate_batch_data,
    prepare_batch_data_length, getElem?_prepare_batch_data]
  split_ifs with h1 h2 h2 <;> first | rfl | (exfalso; omega)

lemma yieldBatch_prepare_self (load : R → D) (out : R × Option D → β)
    (st : IterState R D) (low high : Nat) :
    yieldBatch out (prepare_batch_data load (low : Int) (high : Int) st)
        low high =
      loadedSlice load out (st.map Prod.fst) low high := by
  unfold yieldBatch loadedSlice
  apply List.ext_getElem?
  intro j
  rw [List.getElem?_map, List.getElem?_map, List.getElem?_take,
    List.getElem?_take]
  by_cases hj : j < high - low
  · rw [if_pos hj, if_pos hj, List.getElem?_drop, List.getElem?_drop,
      List.getElem?_map, getElem?_prepare_batch_data]
    split_ifs with hcond
    · cases st[low + j]? <;> rfl
    · have hnone : st[low + j]? = none := List.getElem?_eq_none (by omega)
      rw [hnone]
      rfl
  · rw [if_neg hj, if_neg hj]
    rfl

lemma map_fst_prepare_batch_data (load : R → D) (low high : Int)
    (st : IterState R D) :
    (prepare_batch_data load low high st).map Prod.fst = st.map Prod.fst := by
  apply List.ext_getElem?
  intro i
  rw [List.getElem?_map, List.getElem?_map, getElem?_prepare_batch_data]
  split_ifs
  · cases st[i]? <;> rfl
  · rfl

lemma map_fst_invalidate_batch_data (low high : Int) (st : IterState R D) :
    (invalidate_batch_data low high st).map Prod.fst = st.map Prod.fst := by
  apply List.ext_getElem?
  intro i
  rw [List.getElem?_map, List.getElem?_map, getElem?_invalidate_batch_data]
  split_ifs
  · cases st[i]? <;> rfl
  · rfl

lemma lowsFrom_length (b : Nat) : ∀ (k low0 : Nat),
    (lowsFrom low0 k b).length = k
  | 0, _ => rfl
  | k + 1, low0 => by
      rw [lowsFrom, List.length_cons, lowsFrom_length b k (low0 + b)]

lemma loadedSlice_congr (load : R → D) (out : R × Option D → β)
    (rs rs' : List R) (hrs : rs = rs') (low high : Nat) :
    loadedSlice load out rs low high = loadedSlice load out rs' low high := by
  rw [hrs]

lemma asyncLoopOut_eq_syncLoopOut (load : R → D) (out : R × Option D → β)
    (b n : Nat) : ∀ (k low0 : Nat) (st : IterState R D) (l h : Nat),
    h ≤ low0 →
    asyncLoopOut load out b n (lowsFrom low0 k b) st (some (l, h)) =
      syncLoopOut load out b n (lowsFrom low0 k b)
        (prepare_batch_data load l h st) (some (l, h))
  | 0, low0, st, l, h, hle => rfl
  | k + 1, low0, st, l, h, hle => by
      simp only [lowsFrom, asyncLoopOut, syncLoopOut]
      rw [yieldBatch_prepare_disjoint load out
        (prepare_batch_data load (l : Int) (h : Int) st) (low0 : Int)
        ((min (low0 + b) n : Nat) : Int) l h (by omega)]
      rw [asyncLoopOut_eq_syncLoopOut load out b n k (low0 + b)
        (invalidate_batch_data (l : Int) (h : Int)
          (prepare_batch_data load (l : Int) (h : Int) st)) low0
        (min (low0 + b) n) (Nat.min_le_left _ _)]
      rw [prepare_invalidate_comm load (low0 : Int)
        ((min (low0 + b) n : Nat) : Int) (l : Int) (h : Int)
        (prepare_batch_data load (l : Int) (h : Int) st) (by omega)]

lemma asyncLoopSt_eq_syncLoopSt (load : R → D) (b n : Nat) :
    ∀ (k low0 : Nat) (st : IterState R D) (l h : Nat), h ≤ low0 →
    asyncLoopSt load b n (lowsFrom low0 k b) st (some (l, h)) =
      syncLoopSt load b n (lowsFrom low0 k b)
        (prepare_batch_data load l h st) (some (l, h))
  | 0, low0, st, l, h, hle => rfl
  | k + 1, low0, st, l, h, hle => by
      simp only [lowsFrom, asyncLoopSt, syncLoopSt]
      rw [asyncLoopSt_eq_syncLoopSt load b n k (low0 + b)
        (invalidate_batch_data (l : Int) (h : Int)
          (prepare_batch_data load (l : Int) (h : Int) st)) low0
        (min (low0 + b) n) (Nat.min_le_left _ _)]
      rw [prepare_invalidate_comm load (low0 : Int)
        ((min (low0 + b) n : Nat) : Int) (l : Int) (h : Int)
        (prepare_batch_data load (l : Int) (h : Int) st) (by omega)]

lemma syncLoopOut_char (load : R → D) (out : R × Option D → β) (b n : Nat) :
    ∀ (k low0 : Nat) (st : IterState R D) (l h : Nat), h ≤ low0 →
    syncLoopOut load out b n (lowsFrom low0 k b) st (some (l, h)) =
      yieldBatch out st l h ::
        (lowsFrom low0 k b).map (fun low =>
          loadedSlice load out (st.map Prod.fst) low (min (low + b) n))
  | 0, low0, st, l, h, hle => rfl
  | k + 1, low0, st, l, h, hle => by
      simp only [lowsFrom, syncLoopOut, List.map_cons]
      rw [yieldBatch_prepare_disjoint load out st (low0 : Int)
        ((min (low0 + b) n : Nat) : Int) l h (by omega)]
      rw [syncLoopOut_char load out b n k (low0 + b)
        (invalidate_batch_data (l : Int) (h : Int)
          (prepare_batch_data load (low0 : Int)
            ((min (low0 + b) n : Nat) : Int) st))
        low0 (min (low0 + b) n) (Nat.min_le_left _ _)]
      rw [yieldBatch_invalidate_disjoint out
        (prepare_batch_data load (low0 : Int)
          ((min (low0 + b) n : Nat) : Int) st)
        (l : Int) (h : Int) low0 (min (low0 + b) n) (by omega)]
      rw [yieldBatch_prepare_self load out st low0 (min (low0 + b) n)]
      simp only [map_fst_invalidate_batch_data, map_fst_prepare_batch_data]

lemma syncLoopSt_map_fst (load : R → D) (b n : Nat) :
    ∀ (lows : List Nat) (st : IterState R D) (prepared : Option (Nat × Nat)),
    (syncLoopSt load b n lows st prepared).map Prod.fst = st.map Prod.fst
  | [], st, none => rfl
  | [], st, some lh => map_fst_invalidate_batch_data _ _ _
  | low :: rest, st, none => by
      rw [syncLoopSt, syncLoopSt_map_fst load b n rest _ _,
        map_fst_prepare_batch_data]
  | low :: rest, st, some lh => by
      rw [syncLoopSt, syncLoopSt_map_fst load b n rest _ _,
        map_fst_invalidate_batch_data, map_fst_prepare_batch_data]

lemma join_loadedSlices (load : R → D) (out : R × Option D → β) (rs : List R)
    (b : Nat) : ∀ (k low0 : Nat), rs.length ≤ low0 + k * b →
    ((lowsFrom low0 k b).map (fun low =>
        loadedSlice load out rs low (min (low + b) rs.length))).flatten =
      (rs.drop low0).map (fun r => out (r, some (load r)))
  | 0, low0, hcov => by
      rw [lowsFrom]
      rw [List.map_nil, List.flatten_nil,
        List.drop_eq_nil_of_le (by simpa using hcov), List.map_nil]
  | k + 1, low0, hcov => by
      have hcov' : rs.length ≤ (low0 + b) + k * b := by
        have : low0 + (k + 1) * b = (low0 + b) + k * b := by ring
        omega
      rw [lowsFrom, List.map_cons, List.flatten_cons,
        join_loadedSlices load out rs b k (low0 + b) hcov']
      rw [loadedSlice]
      rw [← List.map_append]
      congr 1
      by_cases hc : low0 + b ≤ rs.length
      · rw [min_eq_left hc]
        rw [(List.drop_drop b low0 rs).symm]
        have hb' : low0 + b - low0 = b := by omega
        rw [hb']
        exact List.take_append_drop b (rs.drop low0)
      · rw [min_eq_right (show rs.length ≤ low0 + b by omega)]
        rw [List.drop_eq_nil_of_le (show rs.length ≤ low0 + b by omega),
          List.append_nil]
        apply List.take_of_length_le
        simp [List.length_drop]

lemma dictOf_isSome_iff (l : List (Nat × String)) (k : Nat) :
    (dictOf l k).isSome = true ↔ k ∈ l.map Prod.fst := by
  rw [dictOf]
  rw [Option.isSome_map']
  rw [List.find?_isSome]
  constructor
  · rintro ⟨x, hx, hpx⟩
    rw [List.mem_reverse] at hx
    exact List.mem_map.mpr ⟨x, hx, eq_of_beq hpx⟩
  · rintro hk
    obtain ⟨x, hx, hfst⟩ := List.mem_map.mp hk
    exact ⟨x, List.mem_reverse.mpr hx, by simp [hfst]⟩

lemma get_valid_sids_ids (dicomDir icontourDir ocontourDir : String)
    (dicomFiles icontourFiles ocontourFiles : List String)
    (dm im om : String → Option (Nat × String)) :
    (get_valid_sids dicomDir icontourDir ocontourDir dicomFiles icontourFiles
        ocontourFiles dm im om).map Prod.fst =
      List.insertionSort (· ≤ ·)
        (((dicomFiles.filterMap dm).map Prod.fst ++
          (icontourFiles.filterMap im).map Prod.fst ++
          (ocontourFiles.filterMap om).map Prod.fst).dedup) := by
  rw [get_valid_sids, List.map_map]
  exact List.map_id' _

lemma dictOf_field_cases (l : List (Nat × String)) (k : Nat) (dir : String) :
    (k ∈ l.map Prod.fst →
      ∃ f, dictOf l k = some f ∧
        (match dictOf l k with
         | some f => pathJoin dir f
         | none => "") = pathJoin dir f) ∧
    (k ∉ l.map Prod.fst →
      (match dictOf l k with
       | some f => pathJoin dir f
       | none => "") = "") := by
  cases h : dictOf l k with
  | none =>
      constructor
      · intro hk
        have hsome := (dictOf_isSome_iff l k).mpr hk
        rw [h] at hsome
        exact absurd hsome (by simp)
      · intro _
        rfl
  | some f =>
      constructor
      · intro _
        exact ⟨f, rfl, rfl⟩
      · intro hk
        have hsome : (dictOf l k).isSome = true := by rw [h]; rfl
        exact absurd ((dictOf_isSome_iff l k).mp hsome) hk

/-- C4: `_get_valid_sids` returns tuples whose serial ids are exactly the
strictly ascending sorted union of the ids matched in the three
directories, each tuple joining the matched filename onto the directory for
every modality that contains the id and carrying the absent marker `''` for
every modality that does not. -/
theorem get_valid_sids_spec (dicomDir icontourDir ocontourDir : String)
    (dicomFiles icontourFiles ocontourFiles : List String)
    (dm im om : String → Option (Nat × String))
    (t : Nat × String × String × String)
    (ht : t ∈ get_valid_sids dicomDir icontourDir ocontourDir dicomFiles
      icontourFiles ocontourFiles dm im om) :
    List.Sorted (· < ·)
      ((get_valid_sids dicomDir icontourDir ocontourDir dicomFiles
        icontourFiles ocontourFiles dm im om).map Prod.fst) ∧
    (∀ s : Nat,
      s ∈ (get_valid_sids dicomDir icontourDir ocontourDir dicomFiles
          icontourFiles ocontourFiles dm im om).map Prod.fst ↔
        (s ∈ (dicomFiles.filterMap dm).map Prod.fst ∨
         s ∈ (icontourFiles.filterMap im).map Prod.fst ∨
         s ∈ (ocontourFiles.filterMap om).map Prod.fst)) ∧
    ((t.1 ∈ (dicomFiles.filterMap dm).map Prod.fst →
        ∃ f, dictOf (dicomFiles.filterMap dm) t.1 = some f ∧
          t.2.1 = pathJoin dicomDir f) ∧
     (t.1 ∉ (dicomFiles.filterMap dm).map Prod.fst → t.2.1 = "")) ∧
    ((t.1 ∈ (icontourFiles.filterMap im).map Prod.fst →
        ∃ f, dictOf (icontourFiles.filterMap im) t.1 = some f ∧
          t.2.2.1 = pathJoin icontourDir f) ∧
     (t.1 ∉ (icontourFiles.filterMap im).map Prod.fst → t.2.2.1 = "")) ∧
    ((t.1 ∈ (ocontourFiles.filterMap om).map Prod.fst →
        ∃ f, dictOf (ocontourFiles.filterMap om) t.1 = some f ∧
          t.2.2.2 = pathJoin ocontourDir f) ∧
     (t.1 ∉ (ocontourFiles.filterMap om).map Prod.fst → t.2.2.2 = "")) := by
  have hids := get_valid_sids_ids dicomDir icontourDir ocontourDir dicomFiles
    icontourFiles ocontourFiles dm im om
  refine ⟨?_, ?_, ?_, ?_, ?_⟩
  · rw [hids]
    have hsorted : List.Sorted (· ≤ ·) (List.insertionSort (· ≤ ·)
        (((dicomFiles.filterMap dm).map Prod.fst ++
          (icontourFiles.filterMap im).map Prod.fst ++
          (ocontourFiles.filterMap om).map Prod.fst).dedup)) :=
      List.sorted_insertionSort _ _
    have hnodup : (List.insertionSort (· ≤ ·)
        (((dicomFiles.filterMap dm).map Prod.fst ++
          (icontourFiles.filterMap im).map Prod.fst ++
          (ocontourFiles.filterMap om).map Prod.fst).dedup)).Nodup :=
      (List.perm_insertionSort _ _).nodup_iff.mpr (List.nodup_dedup _)
    exact hsorted.lt_of_le hnodup
  · intro s
    rw [hids]
    rw [List.mem_insertionSort, List.mem_dedup, List.mem_append,
      List.mem_append]
    exact ⟨fun h => h.elim (fun h => h.elim .inl (.inr ∘ .inl)) (.inr ∘ .inr),
      fun h => h.elim (.inl ∘ .inl) (fun h => h.elim (.inl ∘ .inr) .inr)⟩
  all_goals {
    rw [get_valid_sids, List.mem_map] at ht
    obtain ⟨sid, _, rfl⟩ := ht
    exact dictOf_field_cases _ sid _ }

/-- Witness for C4 on the spec's own example: image ids {1,2,3}, i-contour
ids {2,3}, o-contour ids {3} yield ascending ids [1,2,3] with the filenames
joined for present modalities and `''` otherwise. -/
theorem get_valid_sids_spec_witness :
    ((2, pathJoin "d" "2.dcm", pathJoin "i" "i2", "") ∈ sidsFixtureW) ∧
    List.Sorted (· < ·) (sidsFixtureW.map Prod.fst) ∧
    sidsFixtureW =
      [(1, pathJoin "d" "1.dcm", "", ""),
       (2, pathJoin "d" "2.dcm", pathJoin "i" "i2", ""),
       (3, pathJoin "d" "3.dcm", pathJoin "i" "i3", pathJoin "o" "o3")] := by
  have hmem : (2, pathJoin "d" "2.dcm", pathJoin "i" "i2", "") ∈ sidsFixtureW := by
    rw [show sidsFixtureW =
      [(1, pathJoin "d" "1.dcm", "", ""),
       (2, pathJoin "d" "2.dcm", pathJoin "i" "i2", ""),
       (3, pathJoin "d" "3.dcm", pathJoin "i" "i3", pathJoin "o" "o3")] from rfl]
    exact List.mem_cons_of_mem _ (List.mem_cons_self _ _)
  exact ⟨hmem,
    (get_valid_sids_spec "d" "i" "o" ["1.dcm", "2.dcm", "3.dcm"] ["i2", "i3"]
      ["o3"] dmW imW omW _ hmem).1, rfl⟩

/-- C3 counterexample: a mapping pair whose image directory and
inner-contour directory exist, whose outer-contour directory is absent and
whose matcher would return a record tuple, still contributes zero records —
the code skips a pair when any one of the three directories is missing, not
only when the image directory or both contour directories are missing. -/
theorem parse_records_one_contour_counterexample :
    parse_records existsNoOcontourW getSidsW "droot" "croot" [("p", "s")] = [] ∧
    existsNoOcontourW (pathJoin "droot" "p") = true ∧
    existsNoOcontourW (pathJoin (pathJoin "croot" "s") "i-contours") = true ∧
    existsNoOcontourW (pathJoin (pathJoin "croot" "s") "o-contours") = false ∧
    getSidsW (pathJoin "droot" "p") (pathJoin (pathJoin "croot" "s") "i-contours")
      (pathJoin (pathJoin "croot" "s") "o-contours") ≠ [] := by
  refine ⟨?_, by decide, by decide, by decide, by decide⟩
  rfl

/-- C3 amended: a mapping pair contributes zero records iff the image
directory, the inner-contour directory, or the outer-contour directory is
absent, or the matcher returns no ids; when all three directories exist the
pair contributes exactly one record per matched tuple. -/
theorem parse_records_pair_spec (dirExists : String → Bool)
    (getSids : String → String → String → List (Nat × String × String × String))
    (dicomRoot contourRoot pid oid : String) :
    (parse_records dirExists getSids dicomRoot contourRoot [(pid, oid)] = [] ↔
      (dirExists (pathJoin dicomRoot pid) = false ∨
       dirExists (pathJoin (pathJoin contourRoot oid) "i-contours") = false ∨
       dirExists (pathJoin (pathJoin contourRoot oid) "o-contours") = false ∨
       getSids (pathJoin dicomRoot pid)
         (pathJoin (pathJoin contourRoot oid) "i-contours")
         (pathJoin (pathJoin contourRoot oid) "o-contours") = [])) ∧
    (dirExists (pathJoin dicomRoot pid) = true →
     dirExists (pathJoin (pathJoin contourRoot oid) "i-contours") = true →
     dirExists (pathJoin (pathJoin contourRoot oid) "o-contours") = true →
     parse_records dirExists getSids dicomRoot contourRoot [(pid, oid)] =
       (getSids (pathJoin dicomRoot pid)
         (pathJoin (pathJoin contourRoot oid) "i-contours")
         (pathJoin (pathJoin contourRoot oid) "o-contours")).map (fun t =>
           { patient_id := pid, original_id := oid, serial_id := t.1,
             filenames := t.2, data := none })) := by
  constructor
  · rw [parse_records]
    simp only [List.flatMap_cons, List.flatMap_nil, List.append_nil]
    cases h1 : dirExists (pathJoin dicomRoot pid) <;>
      cases h2 : dirExists (pathJoin (pathJoin contourRoot oid) "i-contours") <;>
        cases h3 : dirExists (pathJoin (pathJoin contourRoot oid) "o-contours") <;>
          simp [List.map_eq_nil_iff]
  · intro h1 h2 h3
    rw [parse_records]
    simp [h1, h2, h3]

/-- Witness for C3's amended statement: with every directory present the
pair contributes one record per matched tuple. -/
theorem parse_records_pair_spec_witness :
    (existsAllW (pathJoin "droot" "p") = true ∧
     existsAllW (pathJoin (pathJoin "croot" "s") "i-contours") = true ∧
     existsAllW (pathJoin (pathJoin "croot" "s") "o-contours") = true) ∧
    parse_records existsAllW getSidsW "droot" "croot" [("p", "s")] =
      [{ patient_id := "p", original_id := "s", serial_id := 1,
         filenames := ("a", "b", ""), data := none }] := by
  refine ⟨⟨rfl, rfl, rfl⟩, ?_⟩
  have h := (parse_records_pair_spec existsAllW getSidsW "droot" "croot"
    "p" "s").2 rfl rfl rfl
  rw [h]
  rfl

/-- C7: a full pass in asynchronous mode yields exactly the same batches
(hence, for every record tag, the same pixel data) and the same final record
list as a full pass in synchronous mode over the same shuffled record
list. -/
theorem async_pass_eq_sync_pass (load : R → D) (out : R × Option D → β)
    (st : IterState R D) (b : Nat) :
    random_shuffled_iterator load out true st b =
      random_shuffled_iterator load out false st b := by
  have h1 : random_shuffled_iterator load out true st b =
      (asyncLoopOut load out b st.length
        (lowsFrom 0 ((st.length + b - 1) / b) b) st none,
       asyncLoopSt load b st.length
        (lowsFrom 0 ((st.length + b - 1) / b) b) st none) := rfl
  have h2 : random_shuffled_iterator load out false st b =
      (syncLoopOut load out b st.length
        (lowsFrom 0 ((st.length + b - 1) / b) b) st none,
       syncLoopSt load b st.length
        (lowsFrom 0 ((st.length + b - 1) / b) b) st none) := rfl
  rw [h1, h2]
  rcases hK : (st.length + b - 1) / b with _ | k
  · rfl
  · simp only [lowsFrom, asyncLoopOut, asyncLoopSt, syncLoopOut, syncLoopSt]
    apply Prod.ext
    · exact asyncLoopOut_eq_syncLoopOut load out b st.length k (0 + b) st 0
        (min (0 + b) st.length) (Nat.min_le_left _ _)
    · exact asyncLoopSt_eq_syncLoopSt load b st.length k (0 + b) st 0
        (min (0 + b) st.length) (Nat.min_le_left _ _)

lemma sync_pass_batches_eq (load : R → D) (out : R × Option D → β)
    (st : IterState R D) (b : Nat) (hb : 1 ≤ b) :
    (random_shuffled_iterator load out false st b).1 =
      (lowsFrom 0 ((st.length + b - 1) / b) b).map (fun low =>
        loadedSlice load out (st.map Prod.fst) low
          (min (low + b) st.length)) := by
  have h1 : (random_shuffled_iterator load out false st b).1 =
      syncLoopOut load out b st.length
        (lowsFrom 0 ((st.length + b - 1) / b) b) st none := rfl
  rw [h1]
  rcases hK : (st.length + b - 1) / b with _ | k
  · have hn : st.length = 0 := by
      have := (Nat.div_eq_zero_iff (by omega : 0 < b)).mp hK
      omega
    rw [List.length_eq_zero.mp hn]
    rfl
  · simp only [lowsFrom, syncLoopOut, List.map_cons]
    rw [syncLoopOut_char load out b st.length k (0 + b)
      (prepare_batch_data load ((0 : Nat) : Int)
        ((min (0 + b) st.length : Nat) : Int) st)
      0 (min (0 + b) st.length) (Nat.min_le_left _ _)]
    rw [yieldBatch_prepare_self load out st 0 (min (0 + b) st.length)]
    simp only [map_fst_prepare_batch_data]

/-- C5: one full synchronous pass over a record list of length N with batch
size `b ≥ 1` yields exactly `ceil(N/b) = (N + b - 1) / b` batches, and the
concatenation of all yielded batches is exactly the per-record loaded data
of the (shuffled) list, in order — so it has length N and every record's
data appears in exactly one batch. -/
theorem sync_pass_spec (load : R → D) (out : R × Option D → β)
    (st : IterState R D) (b : Nat) (hb : 1 ≤ b) :
    (random_shuffled_iterator load out false st b).1.length =
      (st.length + b - 1) / b ∧
    (random_shuffled_iterator load out false st b).1.flatten =
      (st.map Prod.fst).map (fun r => out (r, some (load r))) := by
  have hcov : ∀ len : Nat, len ≤ 0 + (len + b - 1) / b * b := by
    intro len
    have hmod := Nat.div_add_mod (len + b - 1) b
    have hlt : (len + b - 1) % b < b := Nat.mod_lt _ (by omega)
    rw [Nat.zero_add, Nat.mul_comm]
    set M := b * ((len + b - 1) / b) with hM
    omega
  constructor
  · rw [sync_pass_batches_eq load out st b hb, List.length_map,
      lowsFrom_length]
  · rw [sync_pass_batches_eq load out st b hb]
    have hlen : st.length = (st.map Prod.fst).length :=
      (List.length_map _ _).symm
    rw [hlen]
    rw [join_loadedSlices load out (st.map Prod.fst) b _ 0 (hcov _),
      List.drop_zero]

/-- Witness for C5: three records, batch size 2, giving two batches whose
concatenation is every record's loaded data exactly once. -/
theorem sync_pass_spec_witness :
    (1 ≤ 2) ∧
    ((random_shuffled_iterator (fun r : Nat => r)
        (fun rd : Nat × Option Nat => rd) false stIterW 2).1.length =
      (stIterW.length + 2 - 1) / 2 ∧
     (random_shuffled_iterator (fun r : Nat => r)
        (fun rd : Nat × Option Nat => rd) false stIterW 2).1.flatten =
      (stIterW.map Prod.fst).map (fun r => (r, some r))) ∧
    (random_shuffled_iterator (fun r : Nat => r)
        (fun rd : Nat × Option Nat => rd) false stIterW 2).1 =
      [[(1, some 1), (2, some 2)], [(3, some 3)]] := by
  refine ⟨by decide, ?_, by decide⟩
  exact sync_pass_spec (fun r : Nat => r) (fun rd : Nat × Option Nat => rd)
    stIterW 2 (by decide)

/-- C8 counterexample: with two distinct records and the shuffle that swaps
them, a full pass leaves the parser's stored record list in the swapped
order, not the order it had before the call — `random.shuffle` on line 302
permanently reorders `self.record_list`. -/
theorem shuffle_persists_counterexample :
    stShuffledW.Perm stOrigW ∧
    ((random_shuffled_iterator (fun r : Nat => r)
        (fun rd : Nat × Option Nat => rd) false stShuffledW 1).2).map
        Prod.fst = [2, 1] ∧
    stOrigW.map Prod.fst = [1, 2] ∧
    ([2, 1] : List Nat) ≠ [1, 2] := by
  refine ⟨by decide, by decide, by decide, by decide⟩

/-- C8 amended: a full pass leaves the parser's stored record list in the
shuffled order — the same multiset of records as before the call (the
shuffle is a permutation) but in general a different order; the in-place
shuffle persists after iteration. -/
theorem sync_pass_final_order (load : R → D) (out : R × Option D → β)
    (original shuffled : IterState R D) (b : Nat)
    (hperm : shuffled.Perm original) :
    ((random_shuffled_iterator load out false shuffled b).2).map Prod.fst =
      shuffled.map Prod.fst ∧
    (((random_shuffled_iterator load out false shuffled b).2).map
        Prod.fst).Perm (original.map Prod.fst) := by
  have h2 : (random_shuffled_iterator load out false shuffled b).2 =
      syncLoopSt load b shuffled.length
        (lowsFrom 0 ((shuffled.length + b - 1) / b) b) shuffled none := rfl
  rw [h2, syncLoopSt_map_fst]
  exact ⟨rfl, hperm.map Prod.fst⟩

/-- Witness for C8's amended statement. -/
theorem sync_pass_final_order_witness :
    stShuffledW.Perm stOrigW ∧
    (((random_shuffled_iterator (fun r : Nat => r)
        (fun rd : Nat × Option Nat => rd) false stShuffledW 1).2).map
        Prod.fst = stShuffledW.map Prod.fst ∧
     (((random_shuffled_iterator (fun r : Nat => r)
        (fun rd : Nat × Option Nat => rd) false stShuffledW 1).2).map
        Prod.fst).Perm (stOrigW.map Prod.fst)) := by
  refine ⟨by decide, ?_⟩
  exact sync_pass_final_order (fun r : Nat => r)
    (fun rd : Nat × Option Nat => rd) stOrigW stShuffledW 1 (by decide)

/-- C10: the clamped range `[max(low,0), min(high,len))` used by
`_prepare_batch_data` and `_invalidate_batch_data` contains only in-bounds
indices of the record list, for every integer pair `(low, high)`; both
operations leave the list length unchanged, so batch preparation and
release never index out of bounds. -/
theorem clamped_batch_indexing_safe (load : R → D) (low high : Int)
    (st : IterState R D) (i : Int)
    (hi : i ∈ clampedRange low high st.length) :
    0 ≤ i ∧ i.toNat < st.length ∧
    (prepare_batch_data load low high st).length = st.length ∧
    (invalidate_batch_data low high st).length = st.length := by
  have hmem := (mem_clampedRange low high st.length i).mp hi
  exact ⟨by omega, by omega, prepare_batch_data_length load low high st,
    invalidate_batch_data_length low high st⟩

/-- Witness for C10 at a negative `low` and an overlarge `high`. -/
theorem clamped_batch_indexing_safe_witness :
    ((1 : Int) ∈ clampedRange (-5) 10 stIterW.length) ∧
    (0 ≤ (1 : Int) ∧ (1 : Int).toNat < stIterW.length ∧
     (prepare_batch_data (fun r : Nat => r) (-5) 10 stIterW).length =
       stIterW.length ∧
     (invalidate_batch_data (-5) 10 stIterW).length = stIterW.length) := by
  refine ⟨by decide, ?_⟩
  exact clamped_batch_indexing_safe (fun r : Nat => r) (-5) 10 stIterW 1
    (by decide)

/-- Witness for C6 at a concrete record and decoder. -/
theorem record_dicom_only_spec_witness :
    (recordW.filenames = ("a.dcm", "", "") ∧ "a.dcm" ≠ "" ∧
      parseDicomW "a.dcm" = some gridW ∧ recordW.data = none) ∧
    recordW.dataProperty parseDicomW parseContourW =
      .ok (some gridW, some (zerosBool (gridShape gridW)),
           some (zerosBool (gridShape gridW))) := by
  refine ⟨⟨rfl, by decide, rfl, rfl⟩, ?_⟩
  exact (record_dicom_only_spec parseDicomW parseContourW recordW
    "a.dcm" gridW rfl (by decide) rfl rfl).2.2.2.1

end DicomContour
